import Mathlib

/-!
Verification of the convoso_agent repository's call-session core and its
CSV merge utility, as a shallow embedding in Lean.

Each definition below is translated from a single source function; a comment
names the file and function it embeds.  Strings are modelled as `List Char`
where character-level parsing matters, and as `String` elsewhere; JavaScript
truthiness of a string is the test against the empty string; a JS `async`
method that can `throw` becomes a function into `Except String`.
-/

namespace CallLogMerger

/- mergeCallLogs.js, CallLogMerger.normalizePhone.  The JS method works on a
string; we embed strings as lists of characters.  `phone.trim()` removes
leading and trailing whitespace (the ASCII whitespace characters are the only
ones relevant to the claims); `replace(/\D/g, '')` keeps only decimal digits;
`startsWith` looks at the first one or two characters. -/

def jsWhitespace (c : Char) : Bool :=
  c == ' ' || c == '\t' || c == '\n' || c == '\r' || c == '\x0b' || c == '\x0c'

def jsTrim (l : List Char) : List Char :=
  ((l.dropWhile jsWhitespace).reverse.dropWhile jsWhitespace).reverse

/-- normalized.startsWith('+') -/
def startsPlus (l : List Char) : Bool :=
  match l with
  | c :: _ => c == '+'
  | [] => false

/-- normalized.startsWith('+7') -/
def startsPlus7 (l : List Char) : Bool :=
  match l with
  | c :: d :: _ => c == '+' && d == '7'
  | _ => false

/-- normalized.startsWith('1') -/
def starts1 (l : List Char) : Bool :=
  match l with
  | c :: _ => c == '1'
  | [] => false

/-- normalized.replace(/\D/g, '') -/
def keepDigits (l : List Char) : List Char := l.filter Char.isDigit

/-- The +7 to +1 fix: if (normalized.startsWith('+7'))
normalized = '+1' + normalized.substring(2). -/
def plus7fix (l : List Char) : List Char :=
  if startsPlus7 l then '+' :: '1' :: l.drop 2 else l

/-- The branch of normalizePhone after the trim and the +7 fix:
if startsWith('+') keep '+' and the digits of the rest; otherwise keep the
digits and prepend '+1' to a 10-digit number, '+' to an 11-digit number
starting with 1. -/
def normalizeCore (t : List Char) : List Char :=
  if startsPlus t then
    '+' :: keepDigits (t.drop 1)
  else
    if (keepDigits t).length = 10 then
      '+' :: '1' :: keepDigits t
    else if (keepDigits t).length = 11 ∧ starts1 (keepDigits t) = true then
      '+' :: keepDigits t
    else
      keepDigits t

/-- mergeCallLogs.js, CallLogMerger.normalizePhone: `if (!phone) return ''`
(the empty string is the falsy string), then trim, then the +7 fix, then the
digit-keeping branch. -/
def normalizePhone (phone : List Char) : List Char :=
  if phone = [] then [] else normalizeCore (plus7fix (jsTrim phone))

def allDigits (l : List Char) : Bool := l.all Char.isDigit

theorem isDigit_not_ws {c : Char} (h : c.isDigit = true) : jsWhitespace c = false := by
  cases hw : jsWhitespace c with
  | false => rfl
  | true =>
    exfalso
    unfold jsWhitespace at hw
    simp only [Bool.or_eq_true, beq_iff_eq] at hw
    rcases hw with ((((rfl | rfl) | rfl) | rfl) | rfl) | rfl <;> exact absurd h (by decide)

theorem dropWhile_eq_self {p : Char → Bool} :
    ∀ {l : List Char}, (∀ c ∈ l, p c = false) → l.dropWhile p = l := by
  intro l h
  cases l with
  | nil => rfl
  | cons a t => simp [List.dropWhile_cons, h a (by simp)]

theorem jsTrim_eq_self {l : List Char} (h : ∀ c ∈ l, jsWhitespace c = false) :
    jsTrim l = l := by
  unfold jsTrim
  rw [dropWhile_eq_self h, dropWhile_eq_self, List.reverse_reverse]
  intro c hc
  exact h c (List.mem_reverse.mp hc)

theorem keepDigits_of_allDigits {l : List Char} (h : allDigits l = true) :
    keepDigits l = l := by
  unfold keepDigits
  rw [List.filter_eq_self]
  exact List.all_eq_true.mp h

theorem allDigits_keepDigits (l : List Char) : allDigits (keepDigits l) = true := by
  unfold allDigits keepDigits
  rw [List.all_eq_true]
  intro a ha
  exact (List.mem_filter.mp ha).2

theorem startsPlus_of_startsPlus7 {l : List Char} (h : startsPlus7 l = true) :
    startsPlus l = true := by
  match l with
  | [] => exact absurd h (by decide)
  | [c] => exact absurd h (by simp [startsPlus7])
  | c :: d :: t =>
    simp only [startsPlus7, Bool.and_eq_true] at h
    simpa [startsPlus] using h.1

/-- Every output of normalizePhone is empty, a '+' followed by digits only, or
a digit string whose length is neither 10 nor an 11 starting with 1. -/
theorem normalizeCore_shape (t : List Char) :
    (∃ ds, allDigits ds = true ∧ normalizeCore t = '+' :: ds) ∨
    (allDigits (normalizeCore t) = true ∧ (normalizeCore t).length ≠ 10 ∧
      ¬((normalizeCore t).length = 11 ∧ starts1 (normalizeCore t) = true)) := by
  unfold normalizeCore
  by_cases h1 : startsPlus t = true
  · rw [if_pos h1]
    exact Or.inl ⟨_, allDigits_keepDigits _, rfl⟩
  · rw [if_neg h1]
    by_cases h2 : (keepDigits t).length = 10
    · rw [if_pos h2]
      refine Or.inl ⟨'1' :: keepDigits t, ?_, rfl⟩
      simp only [allDigits, List.all_cons, Bool.and_eq_true]
      exact ⟨by decide, allDigits_keepDigits t⟩
    · rw [if_neg h2]
      by_cases h3 : (keepDigits t).length = 11 ∧ starts1 (keepDigits t) = true
      · rw [if_pos h3]
        exact Or.inl ⟨_, allDigits_keepDigits _, rfl⟩
      · rw [if_neg h3]
        exact Or.inr ⟨allDigits_keepDigits _, h2, h3⟩

theorem normalizePhone_shape (p : List Char) :
    normalizePhone p = [] ∨
    (∃ ds, allDigits ds = true ∧ normalizePhone p = '+' :: ds) ∨
    (allDigits (normalizePhone p) = true ∧ (normalizePhone p).length ≠ 10 ∧
      ¬((normalizePhone p).length = 11 ∧ starts1 (normalizePhone p) = true)) := by
  by_cases hp : p = []
  · left
    simp [normalizePhone, hp]
  · right
    have := normalizeCore_shape (plus7fix (jsTrim p))
    simpa [normalizePhone, hp] using this

theorem normalizePhone_of_plus_digits {ds : List Char} (hds : allDigits ds = true)
    (h7 : startsPlus7 ('+' :: ds) = false) :
    normalizePhone ('+' :: ds) = '+' :: ds := by
  have hws : ∀ c ∈ ('+' :: ds : List Char), jsWhitespace c = false := by
    intro c hc
    rcases List.mem_cons.mp hc with rfl | hc
    · decide
    · exact isDigit_not_ws (List.all_eq_true.mp hds c hc)
  have htrim : jsTrim ('+' :: ds) = '+' :: ds := jsTrim_eq_self hws
  have hfix : plus7fix ('+' :: ds) = '+' :: ds := by
    simp [plus7fix, h7]
  have hplus : startsPlus ('+' :: ds) = true := by simp [startsPlus]
  simp [normalizePhone, htrim, hfix, normalizeCore, hplus,
    keepDigits_of_allDigits hds]

theorem normalizePhone_of_digits {ds : List Char} (hds : allDigits ds = true)
    (h10 : ds.length ≠ 10) (h11 : ¬(ds.length = 11 ∧ starts1 ds = true)) :
    normalizePhone ds = ds := by
  cases ds with
  | nil => rfl
  | cons c tl =>
    have hcd : c.isDigit = true := (List.all_eq_true.mp hds c (by simp))
    have hws : ∀ x ∈ (c :: tl : List Char), jsWhitespace x = false := by
      intro x hx
      exact isDigit_not_ws (List.all_eq_true.mp hds x hx)
    have htrim : jsTrim (c :: tl) = c :: tl := jsTrim_eq_self hws
    have hplus : startsPlus (c :: tl) = false := by
      simp only [startsPlus, beq_eq_false_iff_ne, ne_eq]
      intro hceq
      rw [hceq] at hcd
      exact absurd hcd (by decide)
    have h7 : startsPlus7 (c :: tl) = false := by
      cases hsp : startsPlus7 (c :: tl) with
      | false => rfl
      | true => rw [startsPlus_of_startsPlus7 hsp] at hplus; exact absurd hplus (by simp)
    have hfix : plus7fix (c :: tl) = c :: tl := by simp [plus7fix, h7]
    have hkeep : keepDigits (c :: tl) = c :: tl := keepDigits_of_allDigits hds
    have hplus' : ¬startsPlus (c :: tl) = true := by simp [hplus]
    rw [normalizePhone, if_neg (by simp : ¬(c :: tl : List Char) = []), htrim, hfix,
      normalizeCore, if_neg hplus', hkeep, if_neg h10, if_neg h11]

/-- C10 counterexample: for the input "+ 7" (plus, space, seven) the first
normalization yields "+7" — an output that starts with "+7" — and a second
normalization turns it into "+1", so normalizePhone is not idempotent. -/
theorem normalizePhone_not_idempotent :
    normalizePhone (normalizePhone ['+', ' ', '7']) ≠ normalizePhone ['+', ' ', '7'] ∧
    startsPlus7 (normalizePhone ['+', ' ', '7']) = true := by
  constructor
  · decide
  · decide

/-- C10 (amended): normalizePhone is idempotent on every input whose
normalized form does not start with "+7", and empty input normalizes to the
empty string.  (Outputs starting with "+7" do occur — see the
counterexample — and renormalizing such an output changes it.) -/
theorem normalizePhone_idem (p : List Char)
    (h : startsPlus7 (normalizePhone p) = false) :
    normalizePhone (normalizePhone p) = normalizePhone p ∧
      normalizePhone ([] : List Char) = [] := by
  refine ⟨?_, rfl⟩
  rcases normalizePhone_shape p with h0 | ⟨ds, hds, heq⟩ | ⟨hall, h10, h11⟩
  · rw [h0]
    rfl
  · rw [heq] at h ⊢
    exact normalizePhone_of_plus_digits hds h
  · exact normalizePhone_of_digits hall h10 h11

/-- Witness for normalizePhone_idem at the concrete input "555". -/
theorem normalizePhone_idem_witness :
    startsPlus7 (normalizePhone ['5', '5', '5']) = false ∧
      normalizePhone (normalizePhone ['5', '5', '5']) = normalizePhone ['5', '5', '5'] :=
  ⟨by decide, (normalizePhone_idem ['5', '5', '5'] (by decide)).1⟩

end CallLogMerger

namespace Convoso

/-! ## ConvosoAPI cookie jar (src/services/ConvosoAPI.js)

The client stores cookies in a plain object `this.cookies`; assignment to an
existing key overwrites its value in place, a new key is appended.  A
Set-Cookie header is parsed by taking the part before the first ';' and
splitting it on '='; the part after the first '=' may be absent (JS leaves
`value` undefined), hence the `Option`. -/

/-- JS String.prototype.split with a one-character separator. -/
def splitOnChar (sep : Char) : List Char → List (List Char)
  | [] => [[]]
  | c :: rest =>
    if c = sep then [] :: splitOnChar sep rest
    else
      match splitOnChar sep rest with
      | h :: t => (c :: h) :: t
      | [] => [[c]]

abbrev Jar := List (List Char × Option (List Char))

/-- const [nameValue] = cookie.split(';'); const [name, _] = nameValue.split('=') -/
def cookieName (h : List Char) : List Char :=
  ((splitOnChar '=' ((splitOnChar ';' h).headD [])).headD [])

/-- const [nameValue] = cookie.split(';'); const [_, value] = nameValue.split('=') -/
def cookieValue (h : List Char) : Option (List Char) :=
  (splitOnChar '=' ((splitOnChar ';' h).headD []))[1]?

/-- this.cookies[name] = value -/
def jarSet : Jar → List Char → Option (List Char) → Jar
  | [], n, v => [(n, v)]
  | (m, w) :: rest, n, v =>
    if m = n then (m, v) :: rest else (m, w) :: jarSet rest n v

def jarHas : Jar → List Char → Bool
  | [], _ => false
  | (m, _) :: rest, n => m = n || jarHas rest n

/-- ConvosoAPI.extractCookies: for every Set-Cookie header of the response,
store its parsed name and value in the jar. -/
def extractCookies (jar : Jar) (setCookieHeaders : List (List Char)) : Jar :=
  setCookieHeaders.foldl (fun j h => jarSet j (cookieName h) (cookieValue h)) jar

theorem jarHas_jarSet_self (j : Jar) (n : List Char) (v : Option (List Char)) :
    jarHas (jarSet j n v) n = true := by
  induction j with
  | nil => simp [jarSet, jarHas]
  | cons p rest ih =>
    obtain ⟨m, w⟩ := p
    by_cases hm : m = n
    · simp [jarSet, hm, jarHas]
    · simp [jarSet, hm, jarHas, ih]

theorem jarHas_jarSet_mono {j : Jar} {m : List Char} (n : List Char)
    (v : Option (List Char)) (h : jarHas j m = true) :
    jarHas (jarSet j n v) m = true := by
  induction j with
  | nil => simp [jarHas] at h
  | cons p rest ih =>
    obtain ⟨k, w⟩ := p
    simp only [jarHas, Bool.or_eq_true, decide_eq_true_eq] at h
    by_cases hk : k = n
    · simp only [jarSet, if_pos hk, jarHas, Bool.or_eq_true, decide_eq_true_eq]
      exact h
    · simp only [jarSet, if_neg hk, jarHas, Bool.or_eq_true, decide_eq_true_eq]
      rcases h with h | h
      · exact Or.inl h
      · exact Or.inr (ih h)

theorem jarHas_extractCookies_mono {j : Jar} {m : List Char}
    (hs : List (List Char)) (h : jarHas j m = true) :
    jarHas (extractCookies j hs) m = true := by
  induction hs generalizing j with
  | nil => exact h
  | cons a rest ih =>
    exact ih (jarHas_jarSet_mono (cookieName a) (cookieValue a) h)

theorem jarHas_extractCookies_mem {j : Jar} {h : List Char}
    {hs : List (List Char)} (hmem : h ∈ hs) :
    jarHas (extractCookies j hs) (cookieName h) = true := by
  induction hs generalizing j with
  | nil => simp at hmem
  | cons a rest ih =>
    rcases List.mem_cons.mp hmem with rfl | hmem
    · exact jarHas_extractCookies_mono rest (jarHas_jarSet_self j _ _)
    · exact ih hmem

/-! ## ConvosoAPI.login -/

structure HttpResponse where
  status : Nat
  location : Option (List Char)
  setCookies : List (List Char)
deriving DecidableEq

/- ConvosoAPI.login: POST the credentials (the trusted-device cookie, when
configured, is stored in the jar first), then follow up to two redirect hops,
calling extractCookies on every response.  r1 is the initial POST's response
(validateStatus accepts only 302 and 200; axios rejects otherwise); r2 the
response of the GET of the first redirect target, issued only when r1 is a
302 carrying a Location header (createAxiosInstance validates status < 400);
r3 the response of the GET of the second redirect target, issued only when r2
is again a 302 with a Location.  A non-302 initial response throws
"Login failed - no redirect received". -/

/-- The jar before the POST: if config.trustedDeviceCookie is set (truthy),
this.cookies['trusted_device'] is assigned first. -/
def initialJar (trustedDeviceCookie : List Char) : Jar :=
  if trustedDeviceCookie ≠ [] then
    jarSet [] "trusted_device".data (some trustedDeviceCookie)
  else []

/-- ConvosoAPI.login, embedded as described above. -/
def login (trustedDeviceCookie : List Char) (r1 r2 r3 : HttpResponse) :
    Except String Jar :=
  if r1.status ≠ 302 ∧ r1.status ≠ 200 then .error "request failed"
  else
    let jar := extractCookies (initialJar trustedDeviceCookie) r1.setCookies
    if r1.status = 302 ∧ r1.location.isSome then
      if 400 ≤ r2.status then .error "request failed"
      else
        let jar := extractCookies jar r2.setCookies
        if r2.status = 302 ∧ r2.location.isSome then
          if 400 ≤ r3.status then .error "request failed"
          else .ok (extractCookies jar r3.setCookies)
        else .ok jar
    else .error "Login failed - no redirect received"

/-- C5: with a redirect chain of depth 2 (initial POST 302, first redirect
GET 302, second redirect GET accepted), login succeeds and every cookie set
by any of the three responses' Set-Cookie headers is present in the final
jar. -/
theorem login_accumulates_cookies (t : List Char) (r1 r2 r3 : HttpResponse)
    (h1 : r1.status = 302) (hl1 : r1.location.isSome)
    (h2 : r2.status = 302) (hl2 : r2.location.isSome)
    (h3 : r3.status < 400) :
    login t r1 r2 r3 = .ok (extractCookies (extractCookies (extractCookies
        (initialJar t) r1.setCookies) r2.setCookies) r3.setCookies) ∧
      ∀ h ∈ r1.setCookies ++ r2.setCookies ++ r3.setCookies,
        jarHas (extractCookies (extractCookies (extractCookies
          (initialJar t) r1.setCookies) r2.setCookies) r3.setCookies)
          (cookieName h) = true := by
  constructor
  · simp only [login]
    rw [if_neg (by simp [h1]), if_pos ⟨h1, hl1⟩, if_neg (by omega),
      if_pos ⟨h2, hl2⟩, if_neg (by omega)]
  · intro h hmem
    rcases List.mem_append.mp hmem with hmem | hm3
    · rcases List.mem_append.mp hmem with hm1 | hm2
      · exact jarHas_extractCookies_mono _
          (jarHas_extractCookies_mono _ (jarHas_extractCookies_mem hm1))
      · exact jarHas_extractCookies_mono _ (jarHas_extractCookies_mem hm2)
    · exact jarHas_extractCookies_mem hm3

/-- Witness for login_accumulates_cookies: a concrete depth-2 redirect chain
setting one cookie per hop; all three cookies end up in the jar. -/
theorem login_accumulates_cookies_witness :
    login "tdc".data
        ⟨302, some "/verify".data, ["PROJECTXSESS=aaa; Path=/".data]⟩
        ⟨302, some "/".data, ["ACCOUNT_ID=42".data]⟩
        ⟨200, none, ["CLUSTER=c7; HttpOnly".data]⟩ =
      .ok (extractCookies (extractCookies (extractCookies (initialJar "tdc".data)
        ["PROJECTXSESS=aaa; Path=/".data]) ["ACCOUNT_ID=42".data])
        ["CLUSTER=c7; HttpOnly".data]) ∧
    ∀ h ∈ ["PROJECTXSESS=aaa; Path=/".data] ++ ["ACCOUNT_ID=42".data] ++
        ["CLUSTER=c7; HttpOnly".data],
      jarHas (extractCookies (extractCookies (extractCookies (initialJar "tdc".data)
        ["PROJECTXSESS=aaa; Path=/".data]) ["ACCOUNT_ID=42".data])
        ["CLUSTER=c7; HttpOnly".data]) (cookieName h) = true :=
  login_accumulates_cookies "tdc".data _ _ _ rfl rfl rfl rfl (by decide)

end Convoso

namespace Convoso

/-! ## ConvosoAPI session state and the operations on it -/

/-- The mutable fields of the ConvosoAPI instance (constructor of
src/services/ConvosoAPI.js). -/
structure ApiState where
  cookies : Jar
  sessionId : Option String
  agentLogId : Option String
  userId : Option String
deriving DecidableEq

/-- The configuration values the API operations read
(src/config/config.js). -/
structure Config where
  campaignId : String
  availabilityReady : String
  availabilityNotReady : String
  dispositionStatus : String
  logoutCode : String
deriving DecidableEq

/-! ### ConvosoAPI.changeAvailability -/

/-- The requests changeAvailability can issue, in the order issued. -/
inductive AvailRequest where
  | resume (session_id agent_log_id : Option String)
  | availabilityChange (campaign : String) (availability : String)
deriving DecidableEq

structure AvailResponse where
  setCookies : List (List Char)
  success : Bool
deriving DecidableEq

/-- ConvosoAPI.changeAvailability: when the requested code is the configured
ready code, the resume endpoint is called first — its failure is caught,
logged and ignored, which is why resumeOk does not influence the sequel —
and then the availability-change request is posted (with campaign '' when
setting to ready, the campaign id otherwise).  Cookies of the
availability-change response are extracted; a non-success body throws.
The first component of the result is the list of issued requests, in
order. -/
def changeAvailability (cfg : Config) (st : ApiState) (availabilityCode : String)
    (resumeOk : Bool) (resp : AvailResponse) :
    List AvailRequest × Except String ApiState :=
  let reqs : List AvailRequest :=
    if availabilityCode = cfg.availabilityReady then
      [AvailRequest.resume st.sessionId st.agentLogId]
    else []
  let reqs := reqs ++ [AvailRequest.availabilityChange
    (if availabilityCode = cfg.availabilityReady then "" else cfg.campaignId)
    availabilityCode]
  let st := { st with cookies := extractCookies st.cookies resp.setCookies }
  if resp.success then (reqs, .ok st)
  else (reqs, .error "Availability change failed")

/-- C4: changing availability to the configured ready code issues the resume
request strictly before the availability-change request, and does so whether
or not the resume request succeeds; with any other code no resume request is
issued. -/
theorem changeAvailability_resume_first (cfg : Config) (st : ApiState)
    (code : String) (resumeOk : Bool) (resp : AvailResponse) :
    (code = cfg.availabilityReady →
      (changeAvailability cfg st code resumeOk resp).1 =
        [AvailRequest.resume st.sessionId st.agentLogId,
         AvailRequest.availabilityChange "" code]) ∧
    (code ≠ cfg.availabilityReady →
      (changeAvailability cfg st code resumeOk resp).1 =
        [AvailRequest.availabilityChange cfg.campaignId code]) ∧
    (changeAvailability cfg st code resumeOk resp).1 =
      (changeAvailability cfg st code true resp).1 := by
  refine ⟨fun h => ?_, fun h => ?_, ?_⟩
  · cases hsucc : resp.success <;> simp [changeAvailability, h, hsucc]
  · cases hsucc : resp.success <;> simp [changeAvailability, h, hsucc]
  · rfl

/-! ### ConvosoAPI.setDisposition and the requests that carry agent_log_id -/

structure DispoResponse where
  setCookies : List (List Char)
  success : Bool
  dataAgentLogId : Option String
deriving DecidableEq

/-- ConvosoAPI.setDisposition, the response-handling part: cookies of the
response are extracted; on a success body, if response.data.data?.agentLogId
is truthy (present and not the empty string) it replaces the stored
this.agentLogId; a non-success body throws "Disposition failed". -/
def setDisposition (st : ApiState) (resp : DispoResponse) : Except String ApiState :=
  let st := { st with cookies := extractCookies st.cookies resp.setCookies }
  if resp.success then
    match resp.dataAgentLogId with
    | some a => if a ≠ "" then .ok { st with agentLogId := some a } else .ok st
    | none => .ok st
  else .error "Disposition failed"

/-- The payload of ConvosoAPI.phoneLogout's POST. -/
structure PhoneLogoutRequest where
  logout_code : String
  campaign : String
  campaign_uids : List String
  agent_log_id : Option String
  session_id : Option String
deriving DecidableEq

/-- ConvosoAPI.phoneLogout, the request-building part. -/
def phoneLogoutRequest (cfg : Config) (st : ApiState) : PhoneLogoutRequest :=
  { logout_code := cfg.logoutCode
    campaign := cfg.campaignId
    campaign_uids := [cfg.campaignId]
    agent_log_id := st.agentLogId
    session_id := st.sessionId }

/-- The payload of ConvosoAPI.checkAutoIncoming's POST (the uid field is a
fresh UUID, passed in here). -/
structure CheckAutoIncomingRequest where
  campaign : String
  campaign_uids : List String
  campaign_dial_method : String
  agent_log_id : Option String
  session_id : Option String
  uid : String
deriving DecidableEq

/-- ConvosoAPI.checkAutoIncoming, the request-building part. -/
def checkAutoIncomingRequest (cfg : Config) (st : ApiState) (dialMethod uid : String) :
    CheckAutoIncomingRequest :=
  { campaign := ""
    campaign_uids := [cfg.campaignId]
    campaign_dial_method := dialMethod
    agent_log_id := st.agentLogId
    session_id := st.sessionId
    uid := uid }

/-- C6: a successful disposition response carrying agentLogId "9" rotates the
stored agent_log_id to "9", and every subsequent request built from the
updated state (phoneLogout, checkAutoIncoming) carries agent_log_id "9". -/
theorem setDisposition_rotates_agentLogId (cfg : Config) (st : ApiState)
    (resp : DispoResponse) (hs : resp.success = true)
    (ha : resp.dataAgentLogId = some "9") :
    ∃ st', setDisposition st resp = .ok st' ∧
      st'.agentLogId = some "9" ∧
      (phoneLogoutRequest cfg st').agent_log_id = some "9" ∧
      (∀ dialMethod uid,
        (checkAutoIncomingRequest cfg st' dialMethod uid).agent_log_id = some "9") := by
  refine ⟨{ st with cookies := extractCookies st.cookies resp.setCookies, agentLogId := some "9" }, ?_, rfl, rfl, fun _ _ => rfl⟩
  simp [setDisposition, hs, ha]

/-- Witness for setDisposition_rotates_agentLogId at a concrete state and
response. -/
theorem setDisposition_rotates_agentLogId_witness :
    ∃ st', setDisposition ⟨[], some "s1", some "7", none⟩ ⟨[], true, some "9"⟩ = .ok st' ∧
      st'.agentLogId = some "9" ∧
      (phoneLogoutRequest ⟨"1173", "2", "1066", "NOCONT", "20"⟩ st').agent_log_id = some "9" ∧
      (∀ dialMethod uid,
        (checkAutoIncomingRequest ⟨"1173", "2", "1066", "NOCONT", "20"⟩ st'
          dialMethod uid).agent_log_id = some "9") :=
  setDisposition_rotates_agentLogId _ _ _ rfl rfl

/-! ### ConvosoAPI.phoneLogout, the response handling -/

structure LogoutResponse where
  status : Nat
  dataSuccess : Bool
deriving DecidableEq

/-- ConvosoAPI.phoneLogout, the response-handling part: the axios instance
(createAxiosInstance) validates status < 400, so axios rejects any error
status and the method's catch rethrows; on an accepted response the method
succeeds iff response.data.success is truthy or response.status is exactly
200, and otherwise throws "Phone logout failed". -/
def phoneLogout (resp : LogoutResponse) : Except String Unit :=
  if 400 ≤ resp.status then .error "request failed"
  else if resp.dataSuccess || resp.status == 200 then .ok ()
  else .error "Phone logout failed"

/-- C7 counterexample: a 302 response is a non-error status (accepted by the
client's validateStatus status < 400), yet phoneLogout with no success flag
in the body raises "Phone logout failed" instead of returning normally. -/
theorem phoneLogout_302_without_flag_errors :
    (302 : Nat) < 400 ∧
      phoneLogout ⟨302, false⟩ = .error "Phone logout failed" := by
  exact ⟨by decide, rfl⟩

/-- C7 (amended): phoneLogout returns normally exactly on the accepted
(status < 400) responses whose body carries a truthy success flag or whose
status is exactly 200; any error status, and any other accepted status
without the success flag, raises an error. -/
theorem phoneLogout_success_iff (resp : LogoutResponse) :
    phoneLogout resp = .ok () ↔
      resp.status < 400 ∧ (resp.dataSuccess = true ∨ resp.status = 200) := by
  unfold phoneLogout
  by_cases h1 : 400 ≤ resp.status
  · rw [if_pos h1]
    simp
    omega
  · rw [if_neg h1]
    by_cases h2 : (resp.dataSuccess || resp.status == 200) = true
    · rw [if_pos h2]
      simp only [Bool.or_eq_true, beq_iff_eq] at h2
      simp only [true_iff]
      exact ⟨by omega, h2⟩
    · rw [if_neg h2]
      simp only [Bool.or_eq_true, beq_iff_eq, not_or] at h2
      constructor
      · intro hcontra
        simp at hcontra
      · rintro ⟨-, hd | hs⟩
        · exact absurd hd h2.1
        · exact absurd hs h2.2

end Convoso

namespace Convoso

/-! ## PuppeteerAgent.monitorCalls (src/services/PuppeteerAgent.js)

The monitoring loop runs while this.isRunning.  Each iteration first checks
the call budget (maxCalls > 0 && callCount >= maxCalls stops the loop), then
skips while this.inCall, then evaluates the in-page call detection and either
handles a new call, ignores a duplicate (this.lastLeadId === lead_id), or
clears this.lastLeadId when nothing actionable is detected.  handleCall is
awaited inside the iteration, so each loop iteration consumes exactly one
detection result; the inCall flag is set and cleared within the same
iteration and is therefore never set at the top of an iteration reachable
from the initial state. -/

structure CallInfo where
  lead_id : Nat
  call_log_id : Option Nat
deriving DecidableEq

/-- One iteration's environment: the detection result (none models both a
null callInfo and a page error degraded to null) and whether handleCall's
body throws (the exception is caught inside handleCall). -/
structure MonEvent where
  detect : Option CallInfo
  handlingFails : Bool
deriving DecidableEq

structure MonState where
  isRunning : Bool
  inCall : Bool
  callCount : Nat
  lastLeadId : Option Nat
  handled : List CallInfo
deriving DecidableEq

/-- PuppeteerAgent.handleCall, the state effects relevant to the loop:
this.callCount++ happens before the try block, so it happens for calls whose
handling throws as well; both the success path and the catch block reset
this.lastLeadId to null before returning. -/
def handleCallRun (st : MonState) (c : CallInfo) (handlingFails : Bool) : MonState :=
  { st with
    callCount := st.callCount + 1
    handled := st.handled ++ [c]
    lastLeadId := none }

/-- The detection part of one monitorCalls iteration (after the budget and
inCall checks): if (callInfo && callInfo.lead_id) with a non-duplicate lead,
set inCall and lastLeadId, run handleCall, clear inCall; a duplicate lead is
ignored; otherwise lastLeadId is cleared. -/
def monitorStep (st : MonState) (e : MonEvent) : MonState :=
  match e.detect with
  | some c =>
    if c.lead_id ≠ 0 then
      if st.lastLeadId = some c.lead_id then
        st
      else
        let st' := handleCallRun { st with inCall := true, lastLeadId := some c.lead_id }
          c e.handlingFails
        { st' with inCall := false }
    else
      { st with lastLeadId := none }
  | none => { st with lastLeadId := none }

/-- PuppeteerAgent.monitorCalls: run iterations over the successive detection
results until the loop exits.  When the budget check fires, this.stop() sets
isRunning to false and the loop breaks without consuming a detection. -/
def monitorRun (maxCalls : Nat) : MonState → List MonEvent → MonState
  | st, [] => st
  | st, e :: rest =>
    if st.isRunning = false then st
    else if 0 < maxCalls ∧ maxCalls ≤ st.callCount then { st with isRunning := false }
    else if st.inCall then monitorRun maxCalls st rest
    else monitorRun maxCalls (monitorStep st e) rest

/-- The loop's initial state when monitoring starts. -/
def monInit : MonState := ⟨true, false, 0, none, []⟩

/-- C1 counterexample: the same call identity (lead 5, call log 7) observed
again on the iteration right after its handling closed is handled a second
time — handleCall runs twice for one identity, because handleCall resets
this.lastLeadId to null on completion. -/
theorem monitor_duplicate_rehandled :
    (monitorRun 0 monInit
        [⟨some ⟨5, some 7⟩, false⟩, ⟨some ⟨5, some 7⟩, false⟩]).handled =
      [⟨5, some 7⟩, ⟨5, some 7⟩] := by
  decide

/-- C1 (amended): a detection whose lead_id equals the remembered
this.lastLeadId does not invoke handleCall (state unchanged), but the memory
only lasts while the call is open: handleCall clears this.lastLeadId on
completion (success or failure), so the same identity observed after closure
is handled as a new call. -/
theorem monitor_duplicate_suppressed_while_remembered (st : MonState)
    (c : CallInfo) (f : Bool) (hz : c.lead_id ≠ 0)
    (h : st.lastLeadId = some c.lead_id) :
    monitorStep st ⟨some c, f⟩ = st ∧
      (∀ st' f', (handleCallRun st' c f').lastLeadId = none) := by
  constructor
  · simp [monitorStep, hz, h]
  · intro st' f'
    rfl

/-- Witness for monitor_duplicate_suppressed_while_remembered at a concrete
state that remembers lead 5. -/
theorem monitor_duplicate_suppressed_witness :
    monitorStep ⟨true, false, 1, some 5, [⟨5, some 7⟩]⟩ ⟨some ⟨5, some 7⟩, false⟩ =
        ⟨true, false, 1, some 5, [⟨5, some 7⟩]⟩ ∧
      (∀ st' f', (handleCallRun st' ⟨5, some 7⟩ f').lastLeadId = none) :=
  monitor_duplicate_suppressed_while_remembered
    ⟨true, false, 1, some 5, [⟨5, some 7⟩]⟩ ⟨5, some 7⟩ false (by decide) rfl

/-- A detection that passes the `callInfo && callInfo.lead_id` guard. -/
def isValidEvent (e : MonEvent) : Bool :=
  match e.detect with
  | some c => c.lead_id ≠ 0
  | none => false

/-- The number of detections that pass the guard. -/
def validCount (evs : List MonEvent) : Nat :=
  (evs.filter isValidEvent).length

theorem monitorStep_count_le (st : MonState) (e : MonEvent) :
    (monitorStep st e).callCount ≤ st.callCount + 1 := by
  unfold monitorStep
  cases e.detect with
  | none => simp
  | some c =>
    by_cases hz : c.lead_id ≠ 0
    · by_cases hd : st.lastLeadId = some c.lead_id
      · simp [hz, hd]
      · simp [hz, hd, handleCallRun]
    · simp [hz]

theorem monitorRun_count_le (maxCalls : Nat) (hpos : 0 < maxCalls) :
    ∀ (evs : List MonEvent) (st : MonState), st.callCount ≤ maxCalls →
      (monitorRun maxCalls st evs).callCount ≤ maxCalls := by
  intro evs
  induction evs with
  | nil => intro st h; exact h
  | cons e rest ih =>
    intro st h
    unfold monitorRun
    by_cases hr : st.isRunning = false
    · rw [if_pos hr]; exact h
    · rw [if_neg hr]
      by_cases hb : 0 < maxCalls ∧ maxCalls ≤ st.callCount
      · rw [if_pos hb]; exact h
      · rw [if_neg hb]
        by_cases hc : st.inCall
        · rw [if_pos hc]; exact ih st h
        · rw [if_neg hc]
          refine ih (monitorStep st e) ?_
          have hlt : st.callCount < maxCalls := by
            rcases Nat.lt_or_ge st.callCount maxCalls with hlt | hge
            · exact hlt
            · exact absurd ⟨hpos, hge⟩ hb
          exact le_trans (monitorStep_count_le st e) hlt

end Convoso

namespace Convoso

theorem validCount_cons_valid {e : MonEvent} (rest : List MonEvent)
    (h : isValidEvent e = true) :
    validCount (e :: rest) = validCount rest + 1 := by
  simp [validCount, List.filter_cons, h]

theorem validCount_cons_invalid {e : MonEvent} (rest : List MonEvent)
    (h : isValidEvent e = false) :
    validCount (e :: rest) = validCount rest := by
  simp [validCount, List.filter_cons, h]

theorem monitorRun_count_exact (maxCalls : Nat) (hpos : 0 < maxCalls) :
    ∀ (evs : List MonEvent) (st : MonState),
      st.lastLeadId = none → st.inCall = false → st.isRunning = true →
      st.callCount ≤ maxCalls → maxCalls ≤ st.callCount + validCount evs →
      (monitorRun maxCalls st evs).callCount = maxCalls := by
  intro evs
  induction evs with
  | nil =>
    intro st _ _ _ hle hge
    simp only [validCount, List.filter_nil, List.length_nil, Nat.add_zero] at hge
    unfold monitorRun
    omega
  | cons e rest ih =>
    intro st hlast hincall hrun hle hge
    unfold monitorRun
    rw [if_neg (by simp [hrun])]
    by_cases hb : 0 < maxCalls ∧ maxCalls ≤ st.callCount
    · rw [if_pos hb]
      show st.callCount = maxCalls
      omega
    · rw [if_neg hb]
      rw [if_neg (by simp [hincall])]
      have hcnt : st.callCount < maxCalls := by
        rcases Nat.lt_or_ge st.callCount maxCalls with hlt | hge'
        · exact hlt
        · exact absurd ⟨hpos, hge'⟩ hb
      rcases he : e.detect with _ | c
      · have hv : isValidEvent e = false := by simp [isValidEvent, he]
        rw [validCount_cons_invalid rest hv] at hge
        have hstep : monitorStep st e = { st with lastLeadId := none } := by
          simp [monitorStep, he]
        rw [hstep]
        exact ih _ rfl hincall hrun hle hge
      · by_cases hz : c.lead_id ≠ 0
        · have hv : isValidEvent e = true := by simp [isValidEvent, he, hz]
          rw [validCount_cons_valid rest hv] at hge
          have hnd : ¬st.lastLeadId = some c.lead_id := by
            rw [hlast]
            simp
          have hstep : monitorStep st e =
              { st with callCount := st.callCount + 1,
                        handled := st.handled ++ [c], lastLeadId := none,
                        inCall := false } := by
            simp [monitorStep, he, hz, hnd, handleCallRun]
          rw [hstep]
          refine ih _ rfl rfl hrun ?_ ?_
          · show st.callCount + 1 ≤ maxCalls
            omega
          · show maxCalls ≤ st.callCount + 1 + validCount rest
            omega
        · have hz0 : c.lead_id = 0 := by
            push_neg at hz
            exact hz
          have hv : isValidEvent e = false := by simp [isValidEvent, he, hz0]
          rw [validCount_cons_invalid rest hv] at hge
          have hstep : monitorStep st e = { st with lastLeadId := none } := by
            simp [monitorStep, he, hz0]
          rw [hstep]
          exact ih _ rfl hincall hrun hle hge

theorem monitorRun_handled_eq_count (maxCalls : Nat) :
    ∀ (evs : List MonEvent) (st : MonState),
      st.handled.length = st.callCount →
      (monitorRun maxCalls st evs).handled.length =
        (monitorRun maxCalls st evs).callCount := by
  intro evs
  induction evs with
  | nil => intro st h; exact h
  | cons e rest ih =>
    intro st h
    unfold monitorRun
    by_cases hr : st.isRunning = false
    · rw [if_pos hr]; exact h
    · rw [if_neg hr]
      by_cases hb : 0 < maxCalls ∧ maxCalls ≤ st.callCount
      · rw [if_pos hb]; exact h
      · rw [if_neg hb]
        by_cases hc : st.inCall
        · rw [if_pos hc]; exact ih st h
        · rw [if_neg hc]
          refine ih (monitorStep st e) ?_
          unfold monitorStep
          rcases e.detect with _ | c
          · simpa using h
          · by_cases hz : c.lead_id ≠ 0
            · by_cases hd : st.lastLeadId = some c.lead_id
              · simp [hz, hd, h]
              · simp [hz, hd, handleCallRun, h]
            · simpa [hz] using h

/-- C2: with a positive budget maxCalls = N the monitoring loop invokes
handleCall at most N times — never N+1 — and exactly N times when at least N
detections pass the call guard; the call counter counts the handleCall
invocations and increments exactly once per attempted call whether or not
the handling throws; once the budget is reached the very next iteration
stops the loop (isRunning becomes false) without handling anything. -/
theorem monitor_call_budget (maxCalls : Nat) (evs : List MonEvent)
    (hpos : 0 < maxCalls) :
    (monitorRun maxCalls monInit evs).callCount ≤ maxCalls ∧
    (maxCalls ≤ validCount evs →
      (monitorRun maxCalls monInit evs).callCount = maxCalls) ∧
    (monitorRun maxCalls monInit evs).handled.length =
      (monitorRun maxCalls monInit evs).callCount ∧
    (∀ st c f, (handleCallRun st c f).callCount = st.callCount + 1) ∧
    (∀ (st : MonState) (e : MonEvent) (rest : List MonEvent),
      maxCalls ≤ st.callCount → st.isRunning = true →
      monitorRun maxCalls st (e :: rest) = { st with isRunning := false }) := by
  refine ⟨monitorRun_count_le maxCalls hpos evs monInit (by simp [monInit]),
    fun henough => monitorRun_count_exact maxCalls hpos evs monInit rfl rfl rfl
      (by simp [monInit]) (by simpa [monInit] using henough),
    monitorRun_handled_eq_count maxCalls evs monInit rfl,
    fun st c f => rfl,
    fun st e rest hcnt hrun => ?_⟩
  unfold monitorRun
  rw [if_neg (by simp [hrun]), if_pos ⟨hpos, hcnt⟩]

/-- Witness for monitor_call_budget: budget 1, a single detection whose
handling throws; the counter still reaches exactly 1. -/
theorem monitor_call_budget_witness :
    (monitorRun 1 monInit [⟨some ⟨3, none⟩, true⟩]).callCount ≤ 1 ∧
    (1 ≤ validCount [⟨some ⟨3, none⟩, true⟩] →
      (monitorRun 1 monInit [⟨some ⟨3, none⟩, true⟩]).callCount = 1) ∧
    (monitorRun 1 monInit [⟨some ⟨3, none⟩, true⟩]).handled.length =
      (monitorRun 1 monInit [⟨some ⟨3, none⟩, true⟩]).callCount ∧
    (∀ st c f, (handleCallRun st c f).callCount = st.callCount + 1) ∧
    (∀ (st : MonState) (e : MonEvent) (rest : List MonEvent),
      1 ≤ st.callCount → st.isRunning = true →
      monitorRun 1 st (e :: rest) = { st with isRunning := false }) :=
  monitor_call_budget 1 [⟨some ⟨3, none⟩, true⟩] (by decide)

end Convoso

namespace Convoso

/-! ## PuppeteerAgent.handleCall, the disposition phase
(src/services/PuppeteerAgent.js lines 510-586)

After the wrapup, handleCall tries in order: the direct disposition-status
button click; if that fails, the click that opens the Disposition panel; if
the panel opened, a retry of the direct click; and only when the panel click
or the retry click fails, setDispositionViaAPI — whose own try/catch swallows
any failure of the REST call, so it is attempted exactly once and never
retried. -/

inductive DispoAction where
  | directClick
  | panelOpenClick
  | panelRetryClick
  | apiCall
deriving DecidableEq

/-- Whether each UI probe of the environment would succeed, and whether the
REST fallback itself would succeed (its outcome is swallowed). -/
structure DispoEnv where
  directClickOk : Bool
  panelOpenOk : Bool
  panelRetryOk : Bool
  apiOk : Bool
deriving DecidableEq

/-- PuppeteerAgent.setDispositionViaAPI: one REST attempt; its try/catch
swallows any error, so the attempt happens exactly once regardless of
outcome. -/
def setDispositionViaAPI (apiOk : Bool) : List DispoAction :=
  [DispoAction.apiCall]

/-- The sequence of attempts the disposition phase of handleCall performs,
in order. -/
def dispositionPhase (env : DispoEnv) : List DispoAction :=
  if env.directClickOk then
    [DispoAction.directClick]
  else
    if env.panelOpenOk then
      if env.panelRetryOk then
        [DispoAction.directClick, DispoAction.panelOpenClick,
         DispoAction.panelRetryClick]
      else
        [DispoAction.directClick, DispoAction.panelOpenClick,
         DispoAction.panelRetryClick] ++ setDispositionViaAPI env.apiOk
    else
      [DispoAction.directClick, DispoAction.panelOpenClick] ++
        setDispositionViaAPI env.apiOk

/-- C3: for every outcome of the UI probes and of the REST call itself, the
disposition phase invokes the REST fallback at most once, and exactly once
precisely when the direct click failed and the panel open or the panel retry
failed. -/
theorem disposition_rest_fallback_once :
    ∀ (d p r a : Bool),
      ((dispositionPhase ⟨d, p, r, a⟩).count DispoAction.apiCall ≤ 1) ∧
      ((dispositionPhase ⟨d, p, r, a⟩).count DispoAction.apiCall = 1 ↔
        d = false ∧ (p = false ∨ r = false)) := by
  decide

/-! ## previousPuppeteerAgent.waitForPhoneState
(src/services/previousPuppeteerAgent.js)

The method loops while Date.now() - startTime < timeoutMs, reading the phone
state once per iteration and sleeping 500 ms between reads; it returns true
as soon as the expected state is read and false once the timeout elapses.
With timeoutMs = 10000 the k-th read happens at elapsed time 500k, so reads
occur for 500k < 10000, i.e. k = 0..19: at most 20 reads. -/

/-- The number of loop iterations: the k with k * pollMs < timeoutMs. -/
def waitIters (timeoutMs pollMs : Nat) : Nat := (timeoutMs + pollMs - 1) / pollMs

/-- The polling loop, reading states k, k+1, ... while fuel remains. -/
def waitLoop (states : Nat → Nat) (expectedState : Nat) : Nat → Nat → Bool
  | _, 0 => false
  | k, fuel + 1 =>
    if states k = expectedState then true
    else waitLoop states expectedState (k + 1) fuel

/-- PuppeteerAgent.waitForPhoneState(expectedState, timeoutMs), reading the
successive phone-state observations from states. -/
def waitForPhoneState (states : Nat → Nat) (expectedState timeoutMs : Nat) : Bool :=
  waitLoop states expectedState 0 (waitIters timeoutMs 500)

/-- previousPuppeteerAgent.handleCall lines 501-522: the waitForPhoneState
result only chooses between a warning and an info log; in both cases the
tracking identity is reset and handleCall returns normally, so the loop
proceeds to the next call. -/
def handleCallFinish (lastLeadId lastCallLogId : Option Nat) (available : Bool) :
    Option Nat × Option Nat :=
  (none, none)

theorem waitLoop_true_iff (states : Nat → Nat) (expectedState : Nat) :
    ∀ (fuel k : Nat),
      waitLoop states expectedState k fuel = true ↔
        ∃ i, i < fuel ∧ states (k + i) = expectedState := by
  intro fuel
  induction fuel with
  | zero =>
    intro k
    simp [waitLoop]
  | succ n ih =>
    intro k
    unfold waitLoop
    by_cases h : states k = expectedState
    · rw [if_pos h]
      simp only [true_iff]
      exact ⟨0, Nat.succ_pos n, by simpa using h⟩
    · rw [if_neg h]
      rw [ih (k + 1)]
      constructor
      · rintro ⟨i, hi, hs⟩
        exact ⟨i + 1, by omega, by rw [show k + (i + 1) = k + 1 + i by omega]; exact hs⟩
      · rintro ⟨i, hi, hs⟩
        cases i with
        | zero => exact absurd (by simpa using hs) h
        | succ j =>
          exact ⟨j, by omega, by rw [show k + 1 + j = k + (j + 1) by omega]; exact hs⟩

/-- C9: the post-disposition wait is bounded — with the 10 s timeout it reads
at most 20 observations, returning true exactly when the expected state 2
(Available) occurs among the first 20 observations and false otherwise — and
the call handling proceeds (tracking reset, normal return) whatever the wait
returned. -/
theorem waitForPhoneState_bounded (states : Nat → Nat) :
    (waitForPhoneState states 2 10000 = true ↔
      ∃ i, i < 20 ∧ states i = 2) ∧
    waitIters 10000 500 = 20 ∧
    (∀ lastLeadId lastCallLogId available,
      handleCallFinish lastLeadId lastCallLogId available = (none, none)) := by
  refine ⟨?_, rfl, fun _ _ _ => rfl⟩
  unfold waitForPhoneState
  rw [show waitIters 10000 500 = 20 from rfl]
  rw [waitLoop_true_iff]
  constructor
  · rintro ⟨i, hi, hs⟩
    exact ⟨i, hi, by simpa using hs⟩
  · rintro ⟨i, hi, hs⟩
    exact ⟨i, hi, by simpa using hs⟩

/-! ## Stop-signal handling while a call is open
(src/services/PuppeteerAgent.js: Application.setupSignalHandlers,
Application.shutdown, PuppeteerAgent.stop)

The SIGINT/SIGTERM handlers call shutdown, which awaits agent.stop() and
then calls process.exit.  stop() sets this.isRunning = false and then
performs the availability clicks and browser.close() without consulting
this.inCall and without awaiting the in-flight handleCall; the open call's
remaining steps run concurrently with the stop sequence and cannot run at
all once the browser is closed or the process has exited.  We model the two
flows as threads of atomic steps interleaved by a schedule (a list of
booleans: true runs the next stop step, false the next call step). -/

structure DrainState where
  stopPC : Nat
  callPC : Nat
  isRunning : Bool
  browserClosed : Bool
  exited : Bool
  callEnded : Bool
  dispositionDone : Bool
deriving DecidableEq

/-- One step of the stop flow: PuppeteerAgent.stop (isRunning = false; click
the status button; click "Not Ready - Break"; browser.close()) followed by
Application.shutdown's process.exit.  No step consults callPC or waits for
the open call. -/
def stopStepRun (st : DrainState) : DrainState :=
  match st.stopPC with
  | 0 => { st with isRunning := false, stopPC := 1 }
  | 1 => { st with stopPC := 2 }
  | 2 => { st with stopPC := 3 }
  | 3 => { st with browserClosed := true, stopPC := 4 }
  | 4 => { st with exited := true, stopPC := 5 }
  | _ => st

/-- One step of the open call's remaining handleCall work: the in-call wait
(Helpers.sleep(config.callDuration)), the call-end (WRAPUP click or API
hangup), the disposition (button click or API).  Page operations cannot run
once the browser is closed, and nothing runs after process exit. -/
def callStepRun (st : DrainState) : DrainState :=
  if st.exited || st.browserClosed then st
  else
    match st.callPC with
    | 0 => { st with callPC := 1 }
    | 1 => { st with callEnded := true, callPC := 2 }
    | 2 => { st with dispositionDone := true, callPC := 3 }
    | _ => st

def drainRun : DrainState → List Bool → DrainState
  | st, [] => st
  | st, c :: cs => drainRun (if c then stopStepRun st else callStepRun st) cs

/-- The state at the moment the stop signal arrives during InCall: the call's
wait, end and disposition steps are still pending. -/
def drainInit : DrainState :=
  ⟨0, 0, true, false, false, false, false⟩

/-- C8 counterexample: under the schedule in which the signal handler's stop
sequence runs while the open call is still in its in-call wait — the
realistic schedule, since the wait is configured in seconds — the process
exits with the open call neither ended nor dispositioned: no drain happens
before the shutdown sequence runs. -/
theorem stop_signal_no_drain :
    (drainRun drainInit [true, true, true, true, true]).exited = true ∧
    (drainRun drainInit [true, true, true, true, true]).dispositionDone = false ∧
    (drainRun drainInit [true, true, true, true, true]).callEnded = false := by
  decide

theorem drain_isRunning_invariant :
    ∀ (s : List Bool) (st : DrainState),
      (1 ≤ st.stopPC → st.isRunning = false) → (st.exited = true → 1 ≤ st.stopPC) →
      (1 ≤ (drainRun st s).stopPC → (drainRun st s).isRunning = false) ∧
      ((drainRun st s).exited = true → 1 ≤ (drainRun st s).stopPC) := by
  intro s
  induction s with
  | nil => intro st h1 h2; exact ⟨h1, h2⟩
  | cons c cs ih =>
    intro st h1 h2
    unfold drainRun
    cases c with
    | true =>
      simp only [if_pos]
      refine ih (stopStepRun st) ?_ ?_
      · intro hpc
        unfold stopStepRun
        rcases hs : st.stopPC with _ | _ | _ | _ | _ | n <;>
          simp_all [stopStepRun]
      · intro hex
        unfold stopStepRun at hex ⊢
        rcases hs : st.stopPC with _ | _ | _ | _ | _ | n <;>
          simp_all [stopStepRun]
    | false =>
      simp only [Bool.false_eq_true, if_neg, if_false]
      refine ih (callStepRun st) ?_ ?_
      · intro hpc
        unfold callStepRun at hpc ⊢
        by_cases hstop : (st.exited || st.browserClosed) = true
        · rw [if_pos hstop] at hpc ⊢
          exact h1 hpc
        · rw [if_neg hstop] at hpc ⊢
          rcases hs : st.callPC with _ | _ | _ | n <;> simp_all
      · intro hex
        unfold callStepRun at hex ⊢
        by_cases hstop : (st.exited || st.browserClosed) = true
        · rw [if_pos hstop] at hex ⊢
          exact h2 hex
        · rw [if_neg hstop] at hex ⊢
          rcases hs : st.callPC with _ | _ | _ | n <;> simp_all

/-- C8 (amended): no drain is performed — there is a schedule (all stop steps
first, exactly what happens when the signal arrives during the long in-call
wait) under which the shutdown sequence runs to completion, the process
exits, and the open call's end-call and disposition steps never ran; what
the stop does guarantee is that once any stop step has run, isRunning is
false, so no new call handling begins — in particular whenever the process
has exited the monitor loop flag is already cleared. -/
theorem stop_signal_immediate_shutdown :
    ((drainRun drainInit [true, true, true, true, true]).exited = true ∧
      (drainRun drainInit [true, true, true, true, true]).dispositionDone = false) ∧
    (∀ s : List Bool, (drainRun drainInit s).exited = true →
      (drainRun drainInit s).isRunning = false) := by
  constructor
  · exact ⟨by decide, by decide⟩
  · intro s hex
    have h := drain_isRunning_invariant s drainInit (by intro h; exact absurd h (by decide))
      (by intro h; exact absurd h (by decide))
    exact h.1 (h.2 hex)

end Convoso
